import Mathlib

/-!
Shallow embedding of the chunked CSV-to-table loading pipeline of
`genetic_data_lake_project/etl_load_csvs.py`, together with theorems
settling the specification claims about it.

The embedding models:
* a cell value as it flows through the pandas pipeline (`Cell`);
* the fixed file-to-table registry (`files_and_tables`);
* the chunked reader (`chunksOf` with `chunkSize = 100000`);
* the per-chunk coercion applied to the relationships table
  (`coerceChunk`, from the `where(notna, None)` loop);
* the chunk loop of `load_csv_to_db` including the `table_created`
  flag, which in the source is set before the `to_sql` call
  (`processChunk`, `runChunksFrom`);
* the `__main__` orchestrator that catches `EmptyDataError` and every
  other exception per dataset (`runDataset`, `runAll`).

Write failures of `chunk.to_sql` are modelled by a failure oracle
`fails : Nat → Bool` indexed by the 1-based chunk number; a failing
write leaves the sink table unchanged and the loop records the failure
and continues, as the `except` / `continue` in the source does.
-/

namespace ETL

/-- A cell value in the pipeline: a present string (the relationships
columns are read with `dtype=str`), the NaN marker pandas produces for
missing fields, or the explicit `None` null marker substituted by the
normalization step. -/
inductive Cell where
  | str (s : String)
  | nan
  | null
deriving DecidableEq

/-- A row: an ordered association of column name to cell value. -/
abbrev Row := List (String × Cell)

/-- A chunk: an ordered batch of rows. -/
abbrev Chunk := List Row

/-- The `files_and_tables` registry of `etl_load_csvs.py`. -/
def files_and_tables : List (String × String) :=
  [("individuals.csv", "individuals"),
   ("relationships.csv", "relationships"),
   ("marriages.csv", "marriages"),
   ("snp_definitions.csv", "snp_definitions"),
   ("snps.csv", "snps"),
   ("indel_definitions.csv", "indel_definitions"),
   ("indels.csv", "indels"),
   ("structural_variants.csv", "structural_variants"),
   ("health_phenotypes.csv", "health_phenotypes"),
   ("lifestyle.csv", "lifestyle")]

/-- The `chunksize` argument passed to `pd.read_csv`. -/
def chunkSize : Nat := 100000

/-- Field texts that `pd.read_csv` treats as missing (NaN): the empty
field and the common default NA spellings relevant here. -/
def naSentinels : List String := ["", "NA", "N/A", "NULL", "null", "NaN", "nan"]

/-- Reading one raw CSV field: a missing representation becomes NaN,
anything else is kept as its string text (the relationships columns are
read with `dtype=str`). -/
def parseField (raw : String) : Cell :=
  if raw ∈ naSentinels then Cell.nan else Cell.str raw

/-- Reading one raw CSV record against the header row. -/
def parseRow (header : List String) (fields : List String) : Row :=
  (header.zip fields).map (fun p => (p.1, parseField p.2))

/-- The columns the source null-normalizes: the
`for col in ["father_id", "mother_id"]` loop of `load_csv_to_db`. -/
def nullNormalizeCols : List String := ["father_id", "mother_id"]

/-- `chunk[col].where(chunk[col].notna(), None)` on one cell: NaN is
replaced by the explicit null marker, everything else kept. -/
def coerceCell (c : Cell) : Cell :=
  match c with
  | Cell.nan => Cell.null
  | c => c

/-- The null-normalization loop applied to one row: only the columns in
`nullNormalizeCols` are rewritten, every other entry is untouched. -/
def coerceRow (row : Row) : Row :=
  row.map (fun p => if p.1 ∈ nullNormalizeCols then (p.1, coerceCell p.2) else p)

/-- The null-normalization loop applied to a whole chunk. -/
def coerceChunk (c : Chunk) : Chunk := c.map coerceRow

/-- Declared sink column types; the source only ever declares
`sqlalchemy.types.Text`. -/
inductive SqlType where
  | text
deriving DecidableEq

/-- The `dtype` dictionary passed to `to_sql`: declared only for the
relationships table, absent (inferred types) for every other table. -/
def sqlDtype (tableName : String) : Option (List (String × SqlType)) :=
  if tableName = "relationships" then
    some [("individual_id", SqlType.text), ("father_id", SqlType.text),
          ("mother_id", SqlType.text)]
  else none

/-- The per-chunk transformation performed before `to_sql`: the
null-normalization runs only for the relationships table. -/
def transformChunk (tableName : String) (c : Chunk) : Chunk :=
  if tableName = "relationships" then coerceChunk c else c

/-- The `if_exists` mode given to `to_sql`. -/
inductive Method where
  | replace
  | append
deriving DecidableEq

/-- `to_sql` on the sink table: `replace` drops and recreates the table
from the chunk, `append` adds the chunk rows after the existing ones. -/
def writeChunk (m : Method) (table : List Row) (c : Chunk) : List Row :=
  match m with
  | Method.replace => c
  | Method.append => table ++ c

/-- The mutable state of the chunk loop in `load_csv_to_db`: the sink
table contents, the `table_created` flag, the `chunk_number` counter,
and the observable record of which chunk numbers succeeded or failed
and which `if_exists` mode each attempted write used. -/
structure LoopState where
  table : List Row
  tableCreated : Bool
  chunkNumber : Nat
  succeeded : List Nat
  failed : List Nat
  methods : List Method
deriving DecidableEq

/-- The loop state on entry to the chunk loop: `chunk_number = 0`,
`table_created = False`, the sink table holding whatever a previous run
left in it. -/
def initState (table : List Row) : LoopState :=
  { table := table, tableCreated := false, chunkNumber := 0,
    succeeded := [], failed := [], methods := [] }

/-- One iteration of the `for chunk in reader` loop.  Mirrors the
source exactly: the chunk is coerced and the mode selected only for the
relationships table; the mode is `replace` precisely when
`table_created` is still false, and `table_created` is set before the
`to_sql` call, hence also when that write fails; a failed write leaves
the table unchanged, records the chunk number as failed, and the loop
continues. -/
def processChunk (tableName : String) (fails : Nat → Bool)
    (st : LoopState) (c : Chunk) : LoopState :=
  if fails (st.chunkNumber + 1) then
    { table := st.table
      tableCreated := if tableName = "relationships" then true else st.tableCreated
      chunkNumber := st.chunkNumber + 1
      succeeded := st.succeeded
      failed := st.failed ++ [st.chunkNumber + 1]
      methods := st.methods ++
        [if tableName = "relationships" ∧ st.tableCreated = false then Method.replace
         else Method.append] }
  else
    { table := writeChunk
        (if tableName = "relationships" ∧ st.tableCreated = false then Method.replace
         else Method.append) st.table (transformChunk tableName c)
      tableCreated := if tableName = "relationships" then true else st.tableCreated
      chunkNumber := st.chunkNumber + 1
      succeeded := st.succeeded ++ [st.chunkNumber + 1]
      failed := st.failed
      methods := st.methods ++
        [if tableName = "relationships" ∧ st.tableCreated = false then Method.replace
         else Method.append] }

/-- The chunk loop from an arbitrary loop state. -/
def runChunksFrom (tableName : String) (fails : Nat → Bool)
    (st : LoopState) : List Chunk → LoopState
  | [] => st
  | c :: cs => runChunksFrom tableName fails (processChunk tableName fails st c) cs

/-- The chunk loop of `load_csv_to_db`, entered with a fresh loop state
over the current sink table contents. -/
def runChunks (tableName : String) (fails : Nat → Bool)
    (tbl : List Row) (cs : List Chunk) : LoopState :=
  runChunksFrom tableName fails (initState tbl) cs

/-- Fuel-indexed chunking of the data rows; the fuel is the row count,
so the recursion is structural and the function evaluates by kernel
reduction. -/
def chunksOfAux (C : Nat) : Nat → List Row → List Chunk
  | 0, _ => []
  | _ + 1, [] => []
  | fuel + 1, x :: xs => (x :: xs.take (C - 1)) :: chunksOfAux C fuel (xs.drop (C - 1))

/-- The chunked reader `pd.read_csv(..., chunksize=C)`: the data rows
split into consecutive batches of at most `C` rows, in file order. -/
def chunksOf (C : Nat) (l : List Row) : List Chunk :=
  chunksOfAux C l.length l

/-- The rows a run of the chunk loop actually writes, starting from
chunk number `start`: the transformed contents of every chunk whose
write does not fail, concatenated in order. -/
def keptRows (tableName : String) (fails : Nat → Bool)
    (start : Nat) (cs : List Chunk) : List Row :=
  (((List.enumFrom start cs).filter (fun p => !fails p.1)).map
    (fun p => transformChunk tableName p.2)).flatten

/-- A run in which no chunk write fails. -/
def noFail : Nat → Bool := fun _ => false

/-- A run in which exactly the first chunk write fails. -/
def failFirst : Nat → Bool := fun n => n == 1

/-- A full pass of `load_csv_to_db` over a source with the given data
rows, with no write failures, against the given current sink table. -/
def cleanLoad (tableName : String) (body tbl : List Row) : LoopState :=
  runChunks tableName noFail tbl (chunksOf chunkSize body)

/-- The condition of a source file as the reader finds it. -/
inductive Source where
  | missing
  | empty
  | withRows (body : List Row)
deriving DecidableEq

/-- The exceptions `load_csv_to_db` can let escape to `__main__`:
`pd.errors.EmptyDataError` for a truly empty file, or any other reader
fault (for example a missing file). -/
inductive LoadError where
  | emptyData
  | readError
deriving DecidableEq

/-- `load_csv_to_db` for one dataset: a missing or unreadable source
raises past the chunk loop; a truly empty source raises
`EmptyDataError`; otherwise the chunk loop runs over the chunked data
rows (zero chunks when the file is header-only). -/
def load_csv_to_db (tableName : String) (src : Source) (fails : Nat → Bool)
    (tbl : List Row) : Except LoadError LoopState :=
  match src with
  | Source.missing => Except.error LoadError.readError
  | Source.empty => Except.error LoadError.emptyData
  | Source.withRows body =>
      Except.ok (runChunks tableName fails tbl (chunksOf chunkSize body))

/-- The terminal condition of one dataset in the run report. -/
inductive DatasetStatus where
  | done
  | emptySkipped
  | failedCritical
deriving DecidableEq

/-- Whether a terminal condition counts as a success (the dataset did
not abort with a critical error). -/
def isSuccess : DatasetStatus → Bool
  | DatasetStatus.done => true
  | DatasetStatus.emptySkipped => true
  | DatasetStatus.failedCritical => false

/-- The per-dataset summary of the run report. -/
structure LoadResult where
  dataset : String
  status : DatasetStatus
  chunksAttempted : Nat
  chunksSucceeded : Nat
  chunksFailed : Nat
deriving DecidableEq

/-- One iteration of the `__main__` loop: `load_csv_to_db` is called
under two handlers, the inner one catching `EmptyDataError` with a
warning and the outer one catching every other exception with a
critical message; in every case the loop continues.  Returns the
dataset's report entry and the dataset's final sink table. -/
def runDataset (tableName : String) (src : Source) (fails : Nat → Bool)
    (tbl : List Row) : LoadResult × List Row :=
  match load_csv_to_db tableName src fails tbl with
  | Except.ok st =>
      ({ dataset := tableName, status := DatasetStatus.done,
         chunksAttempted := st.chunkNumber,
         chunksSucceeded := st.succeeded.length,
         chunksFailed := st.failed.length }, st.table)
  | Except.error LoadError.emptyData =>
      ({ dataset := tableName, status := DatasetStatus.emptySkipped,
         chunksAttempted := 0, chunksSucceeded := 0, chunksFailed := 0 }, tbl)
  | Except.error LoadError.readError =>
      ({ dataset := tableName, status := DatasetStatus.failedCritical,
         chunksAttempted := 0, chunksSucceeded := 0, chunksFailed := 0 }, tbl)

/-- The whole `__main__` run: every entry of `files_and_tables` is
processed, each against its own source file, failure pattern and sink
table, and each contributes exactly one report entry. -/
def runAll (srcs : String → Source) (fails : String → Nat → Bool)
    (tables : String → List Row) : List (LoadResult × List Row) :=
  files_and_tables.map
    (fun ft => runDataset ft.2 (srcs ft.1) (fails ft.2) (tables ft.2))

/-- A sample data row. -/
def r0 : Row := [("individual_id", Cell.str "1")]

/-- A second sample data row, with a missing father_id field. -/
def r1 : Row := [("individual_id", Cell.str "2"), ("father_id", Cell.nan)]

/-! ### Properties of the chunked reader -/

theorem chunksOfAux_flatten (C : Nat) :
    ∀ (fuel : Nat) (l : List Row), l.length ≤ fuel →
      (chunksOfAux C fuel l).flatten = l
  | 0, [], _ => by simp [chunksOfAux]
  | 0, x :: xs, h => by simp at h
  | fuel + 1, [], _ => by simp [chunksOfAux]
  | fuel + 1, x :: xs, h => by
      have hxs : xs.length ≤ fuel := by
        simpa [List.length_cons, Nat.succ_le_succ_iff] using h
      have hd : (xs.drop (C - 1)).length ≤ fuel := by
        simp only [List.length_drop]
        omega
      have ih := chunksOfAux_flatten C fuel (xs.drop (C - 1)) hd
      simp [chunksOfAux, ih, List.take_append_drop]

theorem chunksOf_flatten (C : Nat) (l : List Row) :
    (chunksOf C l).flatten = l :=
  chunksOfAux_flatten C l.length l (Nat.le_refl _)

theorem chunksOfAux_length (C : Nat) (hC : 0 < C) :
    ∀ (fuel : Nat) (l : List Row), l.length ≤ fuel →
      (chunksOfAux C fuel l).length = (l.length + (C - 1)) / C
  | 0, [], _ => by
      simp [chunksOfAux]
      exact (Nat.div_eq_of_lt (by omega)).symm
  | 0, x :: xs, h => by simp at h
  | fuel + 1, [], _ => by
      simp [chunksOfAux]
      exact (Nat.div_eq_of_lt (by omega)).symm
  | fuel + 1, x :: xs, h => by
      have hxs : xs.length ≤ fuel := by
        simpa [List.length_cons, Nat.succ_le_succ_iff] using h
      have hd : (xs.drop (C - 1)).length ≤ fuel := by
        simp only [List.length_drop]
        omega
      have ih := chunksOfAux_length C hC fuel (xs.drop (C - 1)) hd
      simp only [chunksOfAux, List.length_cons, ih, List.length_drop]
      have harg : xs.length + 1 + (C - 1) = xs.length + C := by omega
      rw [harg, Nat.add_div_right _ hC]
      rcases Nat.le_total (C - 1) xs.length with hle | hlt
      · have hx : xs.length - (C - 1) + (C - 1) = xs.length := by omega
        rw [hx]
      · have hx : xs.length - (C - 1) + (C - 1) = C - 1 := by omega
        rw [hx, Nat.div_eq_of_lt (by omega), Nat.div_eq_of_lt (by omega)]

theorem chunksOf_length (C : Nat) (hC : 0 < C) (l : List Row) :
    (chunksOf C l).length = (l.length + (C - 1)) / C :=
  chunksOfAux_length C hC l.length l (Nat.le_refl _)

theorem chunksOf_nil (C : Nat) : chunksOf C ([] : List Row) = [] := rfl

theorem chunksOf_ne_nil (C : Nat) (x : Row) (xs : List Row) :
    chunksOf C (x :: xs) ≠ [] := by
  simp [chunksOf, chunksOfAux]

/-! ### Properties of the chunk loop -/

theorem keptRows_nil (tableName : String) (fails : Nat → Bool) (s : Nat) :
    keptRows tableName fails s [] = [] := by
  simp [keptRows, List.enumFrom]

theorem keptRows_cons (tableName : String) (fails : Nat → Bool) (s : Nat)
    (c : Chunk) (cs : List Chunk) :
    keptRows tableName fails s (c :: cs)
      = (if fails s then [] else transformChunk tableName c)
          ++ keptRows tableName fails (s + 1) cs := by
  by_cases hf : fails s <;> simp [keptRows, List.enumFrom, hf]

theorem runChunksFrom_counters (tableName : String) (fails : Nat → Bool) :
    ∀ (cs : List Chunk) (st : LoopState),
      (runChunksFrom tableName fails st cs).chunkNumber
          = st.chunkNumber + cs.length ∧
      (runChunksFrom tableName fails st cs).failed
          = st.failed ++ ((List.enumFrom (st.chunkNumber + 1) cs).filter
              (fun p => fails p.1)).map (fun p => p.1) ∧
      (runChunksFrom tableName fails st cs).succeeded
          = st.succeeded ++ ((List.enumFrom (st.chunkNumber + 1) cs).filter
              (fun p => !fails p.1)).map (fun p => p.1)
  | [], st => by simp [runChunksFrom, List.enumFrom]
  | c :: cs, st => by
      obtain ⟨ih1, ih2, ih3⟩ :=
        runChunksFrom_counters tableName fails cs (processChunk tableName fails st c)
      by_cases hf : fails (st.chunkNumber + 1) <;>
        simp [runChunksFrom, processChunk, hf, List.enumFrom] at ih1 ih2 ih3 ⊢ <;>
        refine ⟨by rw [ih1]; omega, ?_, ?_⟩ <;>
        simp [ih2, ih3, List.append_assoc, Nat.add_assoc]

theorem runChunksFrom_append (tableName : String) (fails : Nat → Bool) :
    ∀ (cs : List Chunk) (st : LoopState),
      (tableName = "relationships" → st.tableCreated = true) →
      (runChunksFrom tableName fails st cs).table
          = st.table ++ keptRows tableName fails (st.chunkNumber + 1) cs ∧
      (runChunksFrom tableName fails st cs).methods
          = st.methods ++ List.replicate cs.length Method.append ∧
      (runChunksFrom tableName fails st cs).tableCreated = st.tableCreated
  | [], st, _ => by simp [runChunksFrom, keptRows_nil]
  | c :: cs, st, h => by
      have hmethod : (if tableName = "relationships" ∧ st.tableCreated = false
          then Method.replace else Method.append) = Method.append := by
        by_cases hrel : tableName = "relationships"
        · simp [hrel, h hrel]
        · simp [hrel]
      have hcreated : (if tableName = "relationships" then true else st.tableCreated)
          = st.tableCreated := by
        by_cases hrel : tableName = "relationships"
        · simp [hrel, h hrel]
        · simp [hrel]
      have h1 : tableName = "relationships" →
          (processChunk tableName fails st c).tableCreated = true := by
        intro hrel
        by_cases hf : fails (st.chunkNumber + 1) <;> simp [processChunk, hf, hrel]
      obtain ⟨iht, ihm, ihc⟩ :=
        runChunksFrom_append tableName fails cs (processChunk tableName fails st c) h1
      by_cases hf : fails (st.chunkNumber + 1)
      · refine ⟨?_, ?_, ?_⟩
        · rw [runChunksFrom, iht]
          simp [processChunk, hf, keptRows_cons, Nat.add_assoc]
        · rw [runChunksFrom, ihm]
          simp [processChunk, hf, hmethod, List.replicate_succ, List.append_assoc]
        · rw [runChunksFrom, ihc]
          simp [processChunk, hf, hcreated]
      · refine ⟨?_, ?_, ?_⟩
        · rw [runChunksFrom, iht]
          simp [processChunk, hf, hmethod, writeChunk, keptRows_cons,
            List.append_assoc, Nat.add_assoc]
        · rw [runChunksFrom, ihm]
          simp [processChunk, hf, hmethod, List.replicate_succ, List.append_assoc]
        · rw [runChunksFrom, ihc]
          simp [processChunk, hf, hcreated]

theorem runChunks_spec (tableName : String) (fails : Nat → Bool)
    (tbl : List Row) (cs : List Chunk) :
    (runChunks tableName fails tbl cs).table
        = (if tableName = "relationships" ∧ cs ≠ [] ∧ fails 1 = false
           then keptRows tableName fails 1 cs
           else tbl ++ keptRows tableName fails 1 cs) ∧
    (runChunks tableName fails tbl cs).methods
        = (if tableName = "relationships" ∧ cs ≠ []
           then Method.replace :: List.replicate (cs.length - 1) Method.append
           else List.replicate cs.length Method.append) ∧
    (runChunks tableName fails tbl cs).tableCreated
        = (decide (tableName = "relationships") && !cs.isEmpty) := by
  by_cases hrel : tableName = "relationships"
  · cases cs with
    | nil =>
        simp [runChunks, runChunksFrom, initState, keptRows_nil, hrel]
    | cons c cs =>
        have h1 : tableName = "relationships" →
            (processChunk tableName fails (initState tbl) c).tableCreated = true := by
          intro hr
          by_cases hf : fails 1 <;> simp [processChunk, initState, hf, hr]
        obtain ⟨iht, ihm, ihc⟩ :=
          runChunksFrom_append tableName fails cs
            (processChunk tableName fails (initState tbl) c) h1
        by_cases hf : fails 1
        · refine ⟨?_, ?_, ?_⟩
          · rw [runChunks, runChunksFrom, iht]
            simp [processChunk, initState, hf, hrel, keptRows_cons]
          · rw [runChunks, runChunksFrom, ihm]
            simp [processChunk, initState, hf, hrel]
          · rw [runChunks, runChunksFrom, ihc]
            simp [processChunk, initState, hf, hrel]
        · refine ⟨?_, ?_, ?_⟩
          · rw [runChunks, runChunksFrom, iht]
            simp [processChunk, initState, hf, hrel, writeChunk, keptRows_cons]
          · rw [runChunks, runChunksFrom, ihm]
            simp [processChunk, initState, hf, hrel]
          · rw [runChunks, runChunksFrom, ihc]
            simp [processChunk, initState, hf, hrel]
  · obtain ⟨iht, ihm, ihc⟩ :=
      runChunksFrom_append tableName fails cs (initState tbl)
        (fun hr => absurd hr hrel)
    refine ⟨?_, ?_, ?_⟩
    · rw [runChunks, iht]
      simp [initState, hrel]
    · rw [runChunks, ihm]
      simp [initState, hrel]
    · rw [runChunks, ihc]
      simp [initState, hrel]

theorem runChunks_counters (tableName : String) (fails : Nat → Bool)
    (tbl : List Row) (cs : List Chunk) :
    (runChunks tableName fails tbl cs).chunkNumber = cs.length ∧
    (runChunks tableName fails tbl cs).failed
        = ((List.enumFrom 1 cs).filter (fun p => fails p.1)).map (fun p => p.1) ∧
    (runChunks tableName fails tbl cs).succeeded
        = ((List.enumFrom 1 cs).filter (fun p => !fails p.1)).map (fun p => p.1) := by
  have h := runChunksFrom_counters tableName fails cs (initState tbl)
  simpa [runChunks, initState] using h

theorem keptRows_noFail (tableName : String) :
    ∀ (s : Nat) (cs : List Chunk),
      keptRows tableName noFail s cs
        = (cs.map (transformChunk tableName)).flatten
  | _, [] => by simp [keptRows_nil]
  | s, c :: cs => by
      have ih := keptRows_noFail tableName (s + 1) cs
      rw [keptRows_cons, ih]
      simp [noFail]

theorem cleanLoad_table (tableName : String) (body tbl : List Row) :
    (cleanLoad tableName body tbl).table
      = (if tableName = "relationships" ∧ body ≠ []
         then ((chunksOf chunkSize body).map (transformChunk tableName)).flatten
         else tbl ++ ((chunksOf chunkSize body).map (transformChunk tableName)).flatten) := by
  have h := (runChunks_spec tableName noFail tbl (chunksOf chunkSize body)).1
  rw [cleanLoad, h, keptRows_noFail]
  cases body with
  | nil => simp [chunksOf_nil]
  | cons x xs => simp [chunksOf_ne_nil, noFail]

theorem transformChunk_other (tableName : String)
    (h : ¬ tableName = "relationships") (c : Chunk) :
    transformChunk tableName c = c := by
  simp [transformChunk, h]

theorem cleanLoad_table_other (tableName : String)
    (h : ¬ tableName = "relationships") (body tbl : List Row) :
    (cleanLoad tableName body tbl).table = tbl ++ body := by
  rw [cleanLoad_table]
  simp only [h, false_and, if_false]
  have hmap : (chunksOf chunkSize body).map (transformChunk tableName)
      = chunksOf chunkSize body := by
    apply List.map_id''
    intro c
    exact transformChunk_other tableName h c
  rw [hmap, chunksOf_flatten]

theorem cleanLoad_relationships_idempotent (body tbl : List Row) :
    (cleanLoad "relationships" body (cleanLoad "relationships" body tbl).table).table
      = (cleanLoad "relationships" body tbl).table := by
  cases body with
  | nil => simp [cleanLoad_table, chunksOf_nil]
  | cons x xs => simp [cleanLoad_table, chunksOf_ne_nil]

theorem runDataset_dataset (tableName : String) (src : Source)
    (fails : Nat → Bool) (tbl : List Row) :
    (runDataset tableName src fails tbl).1.dataset = tableName := by
  cases src <;> rfl

/-! ### Claim theorems -/

/-- C3: for a source with N data rows and chunk size 100000, the reader
produces exactly ceil(N / 100000) chunks, and their concatenation, in
the order produced, is exactly the original row sequence: every source
row appears exactly once and in original file order. -/
theorem c3_chunking_exact_cover (body : List Row) :
    (chunksOf chunkSize body).length
        = (body.length + (chunkSize - 1)) / chunkSize ∧
    (chunksOf chunkSize body).flatten = body :=
  ⟨chunksOf_length chunkSize (by decide) body, chunksOf_flatten chunkSize body⟩

/-- C4: for the replace-mode table (relationships) and a fixed source,
running the load twice in succession leaves the destination table with
exactly the same contents (hence row count) as running it once. -/
theorem c4_replace_rerun_idempotent (body tbl : List Row) :
    (cleanLoad "relationships" body (cleanLoad "relationships" body tbl).table).table
      = (cleanLoad "relationships" body tbl).table :=
  cleanLoad_relationships_idempotent body tbl

/-- C5: for an append-only table (any table other than relationships),
loading the same source twice without clearing leaves exactly twice the
row count of a single load: append is strictly additive and never
deduplicates. -/
theorem c5_append_rerun_doubles (tableName : String)
    (h : ¬ tableName = "relationships") (body : List Row) :
    ((cleanLoad tableName body (cleanLoad tableName body []).table).table).length
      = 2 * ((cleanLoad tableName body []).table).length := by
  simp only [cleanLoad_table_other tableName h]
  simp [List.length_append]
  omega

theorem c5_append_rerun_doubles_witness :
    ((cleanLoad "individuals" [r0] (cleanLoad "individuals" [r0] []).table).table).length
      = 2 * ((cleanLoad "individuals" [r0] []).table).length :=
  c5_append_rerun_doubles "individuals" (by decide) [r0]

/-- C8: a header-only source yields zero chunks and the dataset
finishes as a success (DATASET_DONE, zero chunks attempted, sink table
untouched); a truly empty source raises EmptyDataError, which is
caught and counted as a success with zero chunks; by contrast a
missing/unreadable source fails only that dataset with a critical
(read) error. -/
theorem c8_empty_source_success (tableName : String) (fails : Nat → Bool)
    (tbl : List Row) :
    (runDataset tableName (Source.withRows []) fails tbl).1.chunksAttempted = 0 ∧
    (runDataset tableName (Source.withRows []) fails tbl).1.status
        = DatasetStatus.done ∧
    (runDataset tableName (Source.withRows []) fails tbl).2 = tbl ∧
    isSuccess (runDataset tableName (Source.withRows []) fails tbl).1.status = true ∧
    (runDataset tableName Source.empty fails tbl).1.chunksAttempted = 0 ∧
    isSuccess (runDataset tableName Source.empty fails tbl).1.status = true ∧
    (runDataset tableName Source.empty fails tbl).2 = tbl ∧
    (runDataset tableName Source.missing fails tbl).1.status
        = DatasetStatus.failedCritical ∧
    isSuccess (runDataset tableName Source.missing fails tbl).1.status = false :=
  ⟨rfl, rfl, rfl, rfl, rfl, rfl, rfl, rfl, rfl⟩

/-- C1 counterexample: the claim says every configured dataset has its
first chunk written in replace mode, so that a rerun never accumulates
duplicates.  For the configured dataset `individuals` the first (and
only) chunk of a one-row source is written with `append`, not
`replace`, and a rerun against the table left by the first run yields
the row twice. -/
theorem c1_first_chunk_not_replace_counterexample :
    ("individuals.csv", "individuals") ∈ files_and_tables ∧
    (cleanLoad "individuals" [r0] []).methods = [Method.append] ∧
    Method.append ≠ Method.replace ∧
    (cleanLoad "individuals" [r0]
        (cleanLoad "individuals" [r0] []).table).table = [r0, r0] ∧
    ([r0, r0] : List Row) ≠ [r0] := by decide

/-- C1 (amended): only the relationships dataset is loaded in replace
mode — its first chunk replaces the destination table and every later
chunk is appended, so rerunning it never accumulates duplicates; for
every other configured dataset every chunk, including the first, is
appended, so a rerun appends the whole source again on top of the
previous run's rows. -/
theorem c1_replace_only_for_relationships (tableName : String)
    (body tbl : List Row) :
    (tableName = "relationships" →
        (cleanLoad tableName body tbl).methods
          = (if chunksOf chunkSize body = [] then []
             else Method.replace ::
               List.replicate ((chunksOf chunkSize body).length - 1) Method.append) ∧
        (cleanLoad tableName body (cleanLoad tableName body tbl).table).table
          = (cleanLoad tableName body tbl).table) ∧
    (¬ tableName = "relationships" →
        (cleanLoad tableName body tbl).methods
          = List.replicate (chunksOf chunkSize body).length Method.append ∧
        (cleanLoad tableName body tbl).table = tbl ++ body) := by
  constructor
  · intro hrel
    subst hrel
    refine ⟨?_, cleanLoad_relationships_idempotent body tbl⟩
    have hm := (runChunks_spec "relationships" noFail tbl (chunksOf chunkSize body)).2.1
    rw [cleanLoad, hm]
    by_cases hb : chunksOf chunkSize body = [] <;> simp [hb]
  · intro hrel
    refine ⟨?_, cleanLoad_table_other tableName hrel body tbl⟩
    have hm := (runChunks_spec tableName noFail tbl (chunksOf chunkSize body)).2.1
    rw [cleanLoad, hm]
    simp [hrel]

theorem c1_replace_only_for_relationships_witness :
    (cleanLoad "relationships" [r1] []).methods
        = (if chunksOf chunkSize [r1] = [] then []
           else Method.replace ::
             List.replicate ((chunksOf chunkSize [r1]).length - 1) Method.append) ∧
    (cleanLoad "individuals" [r0] []).table = [] ++ [r0] :=
  ⟨((c1_replace_only_for_relationships "relationships" [r1] []).1 rfl).1,
   ((c1_replace_only_for_relationships "individuals" [r0] []).2 (by decide)).2⟩

/-- C2 counterexample: the claim says that if the first chunk's write
fails, the next chunk that succeeds is the one written in replace mode.
In the code `table_created` is set before `to_sql`, so with the first
of two chunks failing, the second (the first success) is written with
`append`, and the pre-existing table row survives alongside it instead
of the table holding only the successfully written chunk. -/
theorem c2_mode_after_failed_first_chunk_counterexample :
    (runChunks "relationships" failFirst [r0] [[r0], [r1]]).failed = [1] ∧
    (runChunks "relationships" failFirst [r0] [[r0], [r1]]).succeeded = [2] ∧
    (runChunks "relationships" failFirst [r0] [[r0], [r1]]).methods
        = [Method.replace, Method.append] ∧
    Method.append ≠ Method.replace ∧
    (runChunks "relationships" failFirst [r0] [[r0], [r1]]).table
        ≠ coerceChunk [r1] := by decide

/-- C2 (amended): for the replace-mode (relationships) dataset the
table's write mode is decided by the first *attempted* chunk, not the
first successfully written one: the first chunk is attempted in
replace mode and every later chunk in append mode even when the first
chunk's write fails; after a failed first write the surviving chunks
are appended onto whatever the table already held. -/
theorem c2_mode_decided_by_first_attempted_chunk (fails : Nat → Bool)
    (tbl : List Row) (cs : List Chunk) :
    (cs ≠ [] →
        (runChunks "relationships" fails tbl cs).methods
          = Method.replace :: List.replicate (cs.length - 1) Method.append) ∧
    (cs ≠ [] → fails 1 = true →
        (runChunks "relationships" fails tbl cs).table
          = tbl ++ keptRows "relationships" fails 1 cs) ∧
    (runChunks "relationships" fails tbl cs).tableCreated = !cs.isEmpty := by
  obtain ⟨ht, hm, hc⟩ := runChunks_spec "relationships" fails tbl cs
  refine ⟨?_, ?_, ?_⟩
  · intro hcs
    rw [hm]
    simp [hcs]
  · intro hcs hf
    rw [ht]
    simp [hcs, hf]
  · rw [hc]
    simp

theorem c2_mode_decided_by_first_attempted_chunk_witness :
    (runChunks "relationships" failFirst [r0] [[r0], [r1]]).methods
        = Method.replace ::
            List.replicate (([[r0], [r1]] : List Chunk).length - 1) Method.append ∧
    (runChunks "relationships" failFirst [r0] [[r0], [r1]]).table
        = [r0] ++ keptRows "relationships" failFirst 1 [[r0], [r1]] :=
  ⟨(c2_mode_decided_by_first_attempted_chunk failFirst [r0] [[r0], [r1]]).1
      (by decide),
   (c2_mode_decided_by_first_attempted_chunk failFirst [r0] [[r0], [r1]]).2.1
      (by decide) (by decide)⟩

/-- C6: a chunk write failure is caught at the chunk boundary: the
failed chunk number is recorded (in a report entry carrying the
dataset name), each chunk is attempted exactly once (no retry), every
non-failing chunk before and after it is written, the sequence of
write modes does not depend on the failure pattern at all (later
chunks stay in append mode regardless), and the dataset still finishes
as DATASET_DONE with chunks_failed counting the failures. -/
theorem c6_chunk_failure_isolated (tableName : String) (fails : Nat → Bool)
    (tbl body : List Row) (cs : List Chunk) :
    (runChunks tableName fails tbl cs).chunkNumber = cs.length ∧
    (runChunks tableName fails tbl cs).failed
        = ((List.enumFrom 1 cs).filter (fun p => fails p.1)).map (fun p => p.1) ∧
    (runChunks tableName fails tbl cs).succeeded
        = ((List.enumFrom 1 cs).filter (fun p => !fails p.1)).map (fun p => p.1) ∧
    (runChunks tableName fails tbl cs).methods
        = (if tableName = "relationships" ∧ cs ≠ []
           then Method.replace :: List.replicate (cs.length - 1) Method.append
           else List.replicate cs.length Method.append) ∧
    (runChunks tableName fails tbl cs).table
        = (if tableName = "relationships" ∧ cs ≠ [] ∧ fails 1 = false
           then keptRows tableName fails 1 cs
           else tbl ++ keptRows tableName fails 1 cs) ∧
    (runDataset tableName (Source.withRows body) fails tbl).1.status
        = DatasetStatus.done ∧
    (runDataset tableName (Source.withRows body) fails tbl).1.chunksFailed
        = (runChunks tableName fails tbl (chunksOf chunkSize body)).failed.length ∧
    (runDataset tableName (Source.withRows body) fails tbl).1.dataset = tableName := by
  obtain ⟨h1, h2, h3⟩ := runChunks_counters tableName fails tbl cs
  obtain ⟨h4, h5, _⟩ := runChunks_spec tableName fails tbl cs
  exact ⟨h1, h2, h3, h5, h4, rfl, rfl, rfl⟩

/-- C7: the run processes every configured dataset and always produces
a complete report with one entry per dataset, in registry order; a
dataset's outcome depends only on that dataset's own source and
failure pattern, so a fault in one dataset (missing file, empty file,
failed chunks) never changes, blocks or removes any sibling dataset's
entry. -/
theorem c7_dataset_isolation_run_completes (srcs srcs2 : String → Source)
    (fails : String → Nat → Bool) (tables : String → List Row) :
    (runAll srcs fails tables).length = files_and_tables.length ∧
    (∀ (i : Nat), ((runAll srcs fails tables).get? i).map
          (fun (e : LoadResult × List Row) => e.1.dataset)
        = (files_and_tables.get? i).map (fun (ft : String × String) => ft.2)) ∧
    (∀ (i : Nat) (ft : String × String),
        files_and_tables.get? i = some ft → srcs ft.1 = srcs2 ft.1 →
        (runAll srcs fails tables).get? i = (runAll srcs2 fails tables).get? i) := by
  refine ⟨by simp [runAll], ?_, ?_⟩
  · intro i
    rw [runAll, List.get?_map]
    cases h : files_and_tables.get? i with
    | none => simp
    | some ft => simp [runDataset_dataset]
  · intro i ft hft hsrc
    rw [runAll, runAll, List.get?_map, List.get?_map, hft]
    simp [hsrc]

theorem c7_dataset_isolation_run_completes_witness :
    (runAll (fun _ => Source.empty) (fun _ _ => false) (fun _ => [])).get? 0
      = (runAll
          (fun s => if s = "individuals.csv" then Source.empty else Source.missing)
          (fun _ _ => false) (fun _ => [])).get? 0 :=
  (c7_dataset_isolation_run_completes (fun _ => Source.empty)
    (fun s => if s = "individuals.csv" then Source.empty else Source.missing)
    (fun _ _ => false) (fun _ => [])).2.2 0 ("individuals.csv", "individuals")
    (by decide) (by decide)

/-- C9: for the relationships dataset the columns individual_id,
father_id and mother_id are declared with the Text SQL type rather than
an inferred one, and after reading and coercion every value in a
null-normalized column is either the explicit null marker (so every
missing representation — empty field or NA sentinel — stores as null)
or a genuinely present, non-missing string; in particular it is never
the NaN marker and never the literal empty string. -/
theorem c9_relationships_nulls_and_text :
    sqlDtype "relationships"
      = some [("individual_id", SqlType.text), ("father_id", SqlType.text),
              ("mother_id", SqlType.text)] ∧
    ∀ (header fields : List String) (col : String) (v : Cell),
      (col, v) ∈ coerceRow (parseRow header fields) →
      col ∈ nullNormalizeCols →
      (v = Cell.null ∨ ∃ s, v = Cell.str s ∧ ¬ s ∈ naSentinels) ∧
      v ≠ Cell.str "" ∧ v ≠ Cell.nan := by
  refine ⟨rfl, ?_⟩
  intro header fields col v hmem hcol
  rw [coerceRow, parseRow, List.map_map] at hmem
  obtain ⟨p, hp, heq⟩ := List.mem_map.1 hmem
  by_cases hin : p.1 ∈ nullNormalizeCols
  · simp only [Function.comp, hin, if_pos, Prod.mk.injEq] at heq
    obtain ⟨hcol2, hv⟩ := heq
    by_cases hsent : p.2 ∈ naSentinels
    · have hnull : v = Cell.null := by
        rw [← hv]
        simp [parseField, hsent, coerceCell]
      subst hnull
      exact ⟨Or.inl rfl, by simp, by simp⟩
    · have hstr : v = Cell.str p.2 := by
        rw [← hv]
        simp [parseField, hsent, coerceCell]
      subst hstr
      refine ⟨Or.inr ⟨p.2, rfl, hsent⟩, ?_, by simp⟩
      intro hcontra
      apply hsent
      have h2 : p.2 = "" := by
        injection hcontra
      rw [h2]
      decide
  · simp only [Function.comp, hin, if_neg, Prod.mk.injEq, not_false_iff] at heq
    obtain ⟨hcol2, _⟩ := heq
    exact absurd (hcol2 ▸ hcol) hin

theorem c9_relationships_nulls_and_text_witness :
    (Cell.null = Cell.null ∨ ∃ s, Cell.null = Cell.str s ∧ ¬ s ∈ naSentinels) ∧
    Cell.null ≠ Cell.str "" ∧ Cell.null ≠ Cell.nan :=
  c9_relationships_nulls_and_text.2
    ["individual_id", "father_id", "mother_id"] ["1", "", "X123"]
    "father_id" Cell.null (by decide) (by decide)

/-- C10: the coercion step is a frame-preserving map: it keeps the
chunk's row count and row order, keeps every row's column list and
order, rewrites only entries of the null-normalized columns (father_id
and mother_id, applying coerceCell), leaves every other column — in
particular individual_id, which is not null-normalized — untouched,
and coerceCell itself changes nothing but the NaN marker, which
becomes the null marker. -/
theorem c10_coercion_frame (c : Chunk) :
    (coerceChunk c).length = c.length ∧
    (∀ (i j : Nat), (((coerceChunk c).get? i).bind (fun r => r.get? j))
        = (((c.get? i).bind (fun r => r.get? j)).map
            (fun e => if e.1 ∈ nullNormalizeCols then (e.1, coerceCell e.2) else e))) ∧
    ¬ "individual_id" ∈ nullNormalizeCols ∧
    (∀ (v : Cell), v ≠ Cell.nan → coerceCell v = v) ∧
    coerceCell Cell.nan = Cell.null := by
  refine ⟨by simp [coerceChunk], ?_, by decide, ?_, rfl⟩
  · intro i j
    rw [coerceChunk, List.get?_map]
    cases h : c.get? i with
    | none => simp
    | some r => simp [coerceRow, List.get?_map]
  · intro v hv
    cases v with
    | str s => rfl
    | nan => exact absurd rfl hv
    | null => rfl

theorem c10_coercion_frame_witness :
    coerceCell (Cell.str "7") = Cell.str "7" ∧
    (coerceChunk [r1]).length = ([r1] : Chunk).length :=
  ⟨(c10_coercion_frame [r1]).2.2.2.1 (Cell.str "7") (by decide),
   (c10_coercion_frame [r1]).1⟩

end ETL
